import Mathlib

/-!
Verification development for the uptime monitor backend (src/main.go).

The Go program is shallowly embedded: the global `statusMap` (a Go
`map[string]string` guarded by a mutex) becomes an association list with
Go map semantics (a missing key reads as the zero value `""`), the probe
and transition logic of `checkWebsite` becomes a pure step function on
that state, and the pagination logic of `statusHandler` becomes a pure
function from a snapshot and the two query parameters to the response
envelope.  Machine-integer arithmetic is modelled explicitly where a
claim depends on it: `Int.tdiv` is Go's truncated integer division and
`int64wrap` is two's-complement wraparound of a 64-bit `int`.
-/

namespace UptimeMonitor

/-- Mirrors `EmailConfig` (src/main.go lines 15-21). -/
structure EmailConfig where
  smtpHost : String
  smtpPort : Int
  sender : String
  password : String
  recipient : String
  deriving Repr, DecidableEq

/-- Mirrors `Config` (src/main.go lines 23-26). -/
structure Config where
  websites : List String
  email : EmailConfig
  deriving Repr, DecidableEq

/-- The state of the global `statusMap` (src/main.go line 40): a Go
`map[string]string`, modelled as an association list with distinct keys
maintained by `mapSet`. -/
abbrev StatusMap := List (String × String)

/-- Go map read `statusMap[url]`: a missing key yields the zero value `""`. -/
def mapGet (m : StatusMap) (k : String) : String :=
  (m.lookup k).getD ""

/-- Go map write `statusMap[url] = v`: overwrite the value if the key is
present, otherwise add the key. -/
def mapSet (m : StatusMap) (k v : String) : StatusMap :=
  if (m.lookup k).isSome then
    m.map (fun p => if p.1 = k then (k, v) else p)
  else
    m ++ [(k, v)]

/-- The key set of the store, in insertion order. -/
def mapKeys (m : StatusMap) : List String :=
  m.map Prod.fst

/-- `statusMap` at process start (src/main.go line 40):
`make(map[string]string)` creates an empty map, and `main` performs no
further initialization. -/
def initialStatusMap : StatusMap := []

/-- The outcome of the `http.Get` call in `checkWebsite` (src/main.go
line 62), as seen by the rest of the function: either a transport-level
error (`err != nil`) or a response carrying a status code. -/
inductive ProbeResult where
  | transportError
  | response (statusCode : Int)
  deriving Repr, DecidableEq

/-- A probe classification: the spec's `Up` / `Down`. -/
inductive Outcome where
  | up
  | down
  deriving Repr, DecidableEq

/-- The classification performed by `checkWebsite` (src/main.go lines
67-86): a transport error is down; a response is up exactly when its
status code satisfies `>= 200 && <= 299`, down otherwise. -/
def probeOutcome : ProbeResult → Outcome
  | ProbeResult.transportError => Outcome.down
  | ProbeResult.response code =>
      if 200 ≤ code ∧ code ≤ 299 then Outcome.up else Outcome.down

/-- One invocation of `checkWebsite` (src/main.go lines 61-87) for a
given target and probe result, acting on the status store.  Returns the
new store and whether `sendEmail` (the notification sink) was invoked.
The branch structure mirrors the source: the `err != nil` branch first,
then the 2xx test; in both down branches the write and the notification
happen only when the previously stored status is not `"down"`. -/
def checkWebsite (m : StatusMap) (url : String) (r : ProbeResult) :
    StatusMap × Bool :=
  let lastStatus := mapGet m url
  match r with
  | ProbeResult.transportError =>
      if lastStatus ≠ "down" then (mapSet m url "down", true) else (m, false)
  | ProbeResult.response code =>
      if 200 ≤ code ∧ code ≤ 299 then
        (mapSet m url "up", false)
      else
        if lastStatus ≠ "down" then (mapSet m url "down", true) else (m, false)

/-- A sequence of probe results for one target processed in order by
`checkWebsite`, together with the number of notifications sent. -/
def runProbes (m : StatusMap) (url : String) (rs : List ProbeResult) :
    StatusMap × Nat :=
  match m, rs with
  | m, [] => (m, 0)
  | m, r :: rest =>
      ((runProbes (checkWebsite m url r).1 url rest).1,
        (if (checkWebsite m url r).2 then 1 else 0)
          + (runProbes (checkWebsite m url r).1 url rest).2)

/-- The states of `statusMap` reachable in the program: it starts empty
and is only ever mutated by `checkWebsite` invocations. -/
inductive Reachable : StatusMap → Prop where
  | init : Reachable initialStatusMap
  | step {m : StatusMap} (url : String) (r : ProbeResult) :
      Reachable m → Reachable (checkWebsite m url r).1

/-- Mirrors `StatusEntry` (src/main.go lines 122-125); the json tags are
`url` and `status`. -/
structure StatusEntry where
  url : String
  status : String
  deriving Repr, DecidableEq

/-- Mirrors `PaginatedStatusResponse` (src/main.go lines 127-131). -/
structure PaginatedStatusResponse where
  totalPages : Int
  currentPage : Int
  data : List StatusEntry
  deriving Repr, DecidableEq

/-- The entries of the store as `StatusEntry` values (the loop at
src/main.go lines 150-152). -/
def entriesOf (m : StatusMap) : List StatusEntry :=
  m.map (fun p => { url := p.1, status := p.2 })

/-- The snapshot taken by `statusHandler` (src/main.go lines 147-158):
the store's entries sorted by URL.  `sort.Slice` with the strict
comparator `URL <` produces the unique ordering that `mergeSort` with
`URL ≤` produces, the keys being distinct. -/
def snapshot (m : StatusMap) : List StatusEntry :=
  (entriesOf m).mergeSort (fun a b => decide (a.url ≤ b.url))

/-- `strconv.Atoi` (src/main.go lines 137 and 142): optional sign, one
or more decimal digits, value within the signed 64-bit range; `none`
models `err != nil` (including range errors, which also set `err`). -/
def goAtoi (s : String) : Option Int :=
  let chars := s.toList
  let signed : Int × List Char :=
    match chars with
    | '+' :: rest => (1, rest)
    | '-' :: rest => (-1, rest)
    | _ => (1, chars)
  if signed.2 = [] then none
  else if signed.2.all (fun c => c.isDigit) then
    let mag : Nat := signed.2.foldl (fun acc c => acc * 10 + (c.toNat - 48)) 0
    let v : Int := signed.1 * mag
    if -(2 ^ 63) ≤ v ∧ v ≤ 2 ^ 63 - 1 then some v else none
  else none

/-- Defaulting of `page` (src/main.go lines 137-140): on parse error or
a value below 1, use 1. -/
def effPage (s : String) : Int :=
  match goAtoi s with
  | none => 1
  | some v => if v < 1 then 1 else v

/-- Defaulting of `limit` (src/main.go lines 142-145): on parse error or
a value below 1, use 10. -/
def effLimit (s : String) : Int :=
  match goAtoi s with
  | none => 10
  | some v => if v < 1 then 10 else v

/-- The pagination arithmetic of `statusHandler` (src/main.go lines
160-178) over an already sorted snapshot, with exact (unbounded)
integer arithmetic — an idealization: the Go code computes on 64-bit
`int`, which wraps, and `paginateWrap` below is the faithful machine
model.  This exact variant is used only where the arithmetic model is
immaterial (comparing two invocations with identical effective
parameters; membership of returned entries in the snapshot) and to
state the spec-intended behavior that the wrapping code fails at
overflowing inputs.  `Int.tdiv` is Go's truncated division; the slice
`statuses[start:end]` is `take end` then `drop start`, total here
because with `page ≥ 1` and `limit ≥ 1` both bounds are nonnegative and
`start ≤ end` after the one-sided clamping. -/
def paginateCore (statuses : List StatusEntry) (page limit : Int) :
    PaginatedStatusResponse :=
  let totalItems : Int := statuses.length
  let totalPages := Int.tdiv (totalItems + limit - 1) limit
  let start0 := (page - 1) * limit
  let end0 := start0 + limit
  let start1 := if start0 > totalItems then totalItems else start0
  let end1 := if end0 > totalItems then totalItems else end0
  { totalPages := totalPages
    currentPage := page
    data := (statuses.take end1.toNat).drop start1.toNat }

/-- `statusHandler` (src/main.go lines 133-183) with exact integer
arithmetic: parse and default the two parameters, snapshot and sort the
store, paginate. -/
def statusHandler (m : StatusMap) (pageStr limitStr : String) :
    PaginatedStatusResponse :=
  paginateCore (snapshot m) (effPage pageStr) (effLimit limitStr)

/-- The concatenation of the `data` arrays of pages 1 through
`totalPages` of the paginated response, for a fixed snapshot and limit,
under the exact-arithmetic idealization `paginateCore` (the
wrap-faithful counterpart is `allPagesDataWrap` below). -/
def allPagesData (statuses : List StatusEntry) (limit : Int) : List StatusEntry :=
  ((List.range (paginateCore statuses 1 limit).totalPages.toNat).map
    (fun i : Nat => (paginateCore statuses ((i : Int) + 1) limit).data)).flatten

/-- Two's-complement wraparound of a 64-bit signed `int`, the machine
semantics of Go arithmetic on `int` (amd64). -/
def int64wrap (n : Int) : Int :=
  (n + 2 ^ 63) % 2 ^ 64 - 2 ^ 63

/-- The pagination arithmetic of `statusHandler` (src/main.go lines
160-178) with 64-bit wraparound on every arithmetic step, and with the
Go slice expression modelled as fallible: `statuses[start:end]` panics
unless `0 ≤ start ≤ end ≤ len` (after the clamping, `end` never exceeds
`len`, so the slice-capacity allowance is immaterial); `none` models the
panic. -/
def paginateWrap (statuses : List StatusEntry) (page limit : Int) :
    Option PaginatedStatusResponse :=
  let totalItems : Int := statuses.length
  let totalPages := Int.tdiv (int64wrap (int64wrap (totalItems + limit) - 1)) limit
  let start0 := int64wrap (int64wrap (page - 1) * limit)
  let end0 := int64wrap (start0 + limit)
  let start1 := if start0 > totalItems then totalItems else start0
  let end1 := if end0 > totalItems then totalItems else end0
  if 0 ≤ start1 ∧ start1 ≤ end1 ∧ end1 ≤ totalItems then
    some { totalPages := totalPages
           currentPage := page
           data := (statuses.take end1.toNat).drop start1.toNat }
  else none

/-- `statusHandler` under the 64-bit machine-arithmetic model. -/
def statusHandlerWrap (m : StatusMap) (pageStr limitStr : String) :
    Option PaginatedStatusResponse :=
  paginateWrap (snapshot m) (effPage pageStr) (effLimit limitStr)

/-- The concatenation of the `data` arrays of pages 1 through
`totalPages` under the 64-bit machine-arithmetic model `paginateWrap`:
pages are 1 through the `totalPages` the program actually reports on
page 1 (none when that value is zero or negative), and a page on which
the slice operation panics contributes no entries. -/
def allPagesDataWrap (statuses : List StatusEntry) (limit : Int) :
    List StatusEntry :=
  ((List.range (((paginateWrap statuses 1 limit).map
      PaginatedStatusResponse.totalPages).getD 0).toNat).map
    (fun i : Nat =>
      ((paginateWrap statuses ((i : Int) + 1) limit).map
        PaginatedStatusResponse.data).getD [])).flatten

/-- What `main` (src/main.go lines 193-202) starts, as a function of the
result of `loadConfiguration`. -/
structure MainOutcome where
  errorReported : Bool
  apiServerStarted : Bool
  monitoringStarted : Bool
  deriving Repr, DecidableEq

/-- The control flow of `main` (src/main.go lines 193-202): on a load
error, print the error and return — neither `startAPIServer` nor
`startMonitoring` runs; otherwise start both. -/
def goMain (load : Except String Config) : MainOutcome :=
  match load with
  | Except.error _ =>
      { errorReported := true, apiServerStarted := false, monitoringStarted := false }
  | Except.ok _ =>
      { errorReported := false, apiServerStarted := true, monitoringStarted := true }

/-! ## Helper lemmas about the store operations -/

theorem mapKeys_cons (a b : String) (t : StatusMap) :
    mapKeys ((a, b) :: t) = a :: mapKeys t := rfl

theorem lookup_map_set (m : StatusMap) (k v : String) :
    (m.map (fun p => if p.1 = k then (k, v) else p)).lookup k =
      (m.lookup k).map (fun _ => v) := by
  induction m with
  | nil => simp
  | cons p t ih =>
      obtain ⟨a, b⟩ := p
      by_cases h : a = k
      · subst h
        simp [List.lookup_cons]
      · have hba : (k == a) = false := beq_eq_false_iff_ne.mpr (Ne.symm h)
        simp only [List.map_cons, if_neg h, List.lookup_cons, hba]
        exact ih

theorem lookup_append_none (m : StatusMap) (k v : String)
    (h : m.lookup k = none) : (m ++ [(k, v)]).lookup k = some v := by
  induction m with
  | nil => simp [List.lookup_cons]
  | cons p t ih =>
      obtain ⟨a, b⟩ := p
      by_cases hk : k = a
      · subst hk
        simp [List.lookup_cons] at h
      · have hba : (k == a) = false := beq_eq_false_iff_ne.mpr hk
        rw [List.lookup_cons, hba] at h
        rw [List.cons_append, List.lookup_cons, hba]
        exact ih h

theorem mapGet_mapSet_self (m : StatusMap) (k v : String) :
    mapGet (mapSet m k v) k = v := by
  unfold mapGet mapSet
  by_cases h : (m.lookup k).isSome
  · rw [if_pos h, lookup_map_set]
    obtain ⟨w, hw⟩ := Option.isSome_iff_exists.mp h
    rw [hw]
    rfl
  · rw [if_neg h, lookup_append_none m k v (Option.not_isSome_iff_eq_none.mp h)]
    rfl

theorem lookup_isSome_mem (m : StatusMap) (k : String) :
    (m.lookup k).isSome = true ↔ k ∈ mapKeys m := by
  induction m with
  | nil => simp [mapKeys]
  | cons p t ih =>
      obtain ⟨a, b⟩ := p
      by_cases h : k = a
      · subst h
        simp [List.lookup_cons, mapKeys_cons]
      · have hba : (k == a) = false := beq_eq_false_iff_ne.mpr h
        rw [List.lookup_cons, hba, mapKeys_cons]
        simp only [List.mem_cons]
        simp [h, ih]

theorem mapKeys_mapSet (m : StatusMap) (k v : String) :
    mapKeys (mapSet m k v) =
      if k ∈ mapKeys m then mapKeys m else mapKeys m ++ [k] := by
  unfold mapSet
  by_cases h : (m.lookup k).isSome
  · rw [if_pos h, if_pos ((lookup_isSome_mem m k).mp h)]
    unfold mapKeys
    rw [List.map_map]
    apply List.map_congr_left
    intro p _
    by_cases hp : p.1 = k
    · simp [Function.comp_apply, hp]
    · simp [Function.comp_apply, hp]
  · rw [if_neg h, if_neg (fun hm => h ((lookup_isSome_mem m k).mpr hm))]
    simp [mapKeys]

theorem mem_keys_of_mapGet_down (m : StatusMap) (k : String)
    (h : mapGet m k = "down") : k ∈ mapKeys m := by
  rw [← lookup_isSome_mem]
  unfold mapGet at h
  cases hl : m.lookup k with
  | none => rw [hl] at h; simp at h
  | some w => simp [hl]

/-! ## Helper lemmas about one `checkWebsite` step -/

theorem checkWebsite_up_eq (m : StatusMap) (url : String) (r : ProbeResult)
    (h : probeOutcome r = Outcome.up) :
    checkWebsite m url r = (mapSet m url "up", false) := by
  cases r with
  | transportError => simp [probeOutcome] at h
  | response code =>
      by_cases hc : 200 ≤ code ∧ code ≤ 299
      · simp [checkWebsite, hc]
      · simp [probeOutcome, hc] at h

theorem checkWebsite_down_new (m : StatusMap) (url : String) (r : ProbeResult)
    (h : probeOutcome r = Outcome.down) (hm : mapGet m url ≠ "down") :
    checkWebsite m url r = (mapSet m url "down", true) := by
  cases r with
  | transportError => simp [checkWebsite, hm]
  | response code =>
      by_cases hc : 200 ≤ code ∧ code ≤ 299
      · simp [probeOutcome, hc] at h
      · simp [checkWebsite, hc, hm]

theorem checkWebsite_down_already (m : StatusMap) (url : String) (r : ProbeResult)
    (h : probeOutcome r = Outcome.down) (hm : mapGet m url = "down") :
    checkWebsite m url r = (m, false) := by
  cases r with
  | transportError => simp [checkWebsite, hm]
  | response code =>
      by_cases hc : 200 ≤ code ∧ code ≤ 299
      · simp [probeOutcome, hc] at h
      · simp [checkWebsite, hc, hm]

/-! ## Claim theorems -/

/-- C4: for every probe of a target, a transport-level failure of the
HTTP GET yields outcome Down, and a received response yields Up exactly
when its status code lies in the inclusive range 200-299, Down for any
code outside that range. -/
theorem probeOutcome_classification :
    probeOutcome ProbeResult.transportError = Outcome.down
  ∧ ∀ code : Int,
      (probeOutcome (ProbeResult.response code) = Outcome.up ↔
        200 ≤ code ∧ code ≤ 299)
    ∧ (probeOutcome (ProbeResult.response code) = Outcome.down ↔
        (code < 200 ∨ 299 < code)) := by
  refine ⟨rfl, fun code => ?_⟩
  by_cases h : 200 ≤ code ∧ code ≤ 299
  · exact ⟨by simp [probeOutcome, h], by simp [probeOutcome, h]⟩
  · exact ⟨by simp [probeOutcome, h], by simp [probeOutcome, h]; omega⟩

/-- C8: a probe step whose outcome is Up stores `up` for the target and
never invokes the notification sink, including when the previously
stored status was `down`. -/
theorem checkWebsite_up_no_notification (m : StatusMap) (url : String)
    (r : ProbeResult) (h : probeOutcome r = Outcome.up) :
    checkWebsite m url r = (mapSet m url "up", false)
  ∧ mapGet (checkWebsite m url r).1 url = "up"
  ∧ (checkWebsite m url r).2 = false := by
  rw [checkWebsite_up_eq m url r h]
  exact ⟨rfl, mapGet_mapSet_self m url "up", rfl⟩

/-- Witness for C8: a down-to-up recovery for a target stored `down`
sends no notification and stores `up`. -/
theorem checkWebsite_up_no_notification_witness :
    checkWebsite [("a.com", "down")] "a.com" (ProbeResult.response 200) =
      (mapSet [("a.com", "down")] "a.com" "up", false)
  ∧ mapGet (checkWebsite [("a.com", "down")] "a.com" (ProbeResult.response 200)).1 "a.com" = "up"
  ∧ (checkWebsite [("a.com", "down")] "a.com" (ProbeResult.response 200)).2 = false :=
  checkWebsite_up_no_notification [("a.com", "down")] "a.com"
    (ProbeResult.response 200) (by decide)

/-- C9: when configuration loading fails, `main` reports the error and
returns before starting either the API server (query service) or the
monitoring loop (scheduler); neither component runs. -/
theorem goMain_config_error_aborts (e : String) :
    goMain (Except.error e) =
      { errorReported := true, apiServerStarted := false,
        monitoringStarted := false } := rfl

/-- C1 counterexample: with configured target set `["a.com"]`, the store
at startup is empty — its key set is not the configured target set — and
the first probe of `a.com` adds a key afterwards. -/
theorem initialStatusMap_keys_counterexample :
    mapKeys initialStatusMap ≠
      (Config.mk ["a.com"] (EmailConfig.mk "" 0 "" "" "")).websites
  ∧ mapKeys (checkWebsite initialStatusMap "a.com" ProbeResult.transportError).1 =
      (Config.mk ["a.com"] (EmailConfig.mk "" 0 "" "" "")).websites := by
  decide

/-- C1 amended: the store is created empty at startup (no target is
premapped to `unknown`; a missing key reads as the zero value), and a
probe step leaves the key set unchanged when the probed target is
already present and appends exactly that target otherwise — so keys are
only ever added, one per newly probed target, and never removed. -/
theorem statusMap_keys_evolution :
    mapKeys initialStatusMap = []
  ∧ ∀ (m : StatusMap) (url : String) (r : ProbeResult),
      mapKeys (checkWebsite m url r).1 =
        if url ∈ mapKeys m then mapKeys m else mapKeys m ++ [url] := by
  refine ⟨rfl, fun m url r => ?_⟩
  rcases hr : probeOutcome r with _ | _
  · rw [checkWebsite_up_eq m url r hr, mapKeys_mapSet]
  · by_cases hm : mapGet m url = "down"
    · rw [checkWebsite_down_already m url r hr hm,
        if_pos (mem_keys_of_mapGet_down m url hm)]
    · rw [checkWebsite_down_new m url r hr hm, mapKeys_mapSet]

theorem runProbes_all_down_already (url : String) (rs : List ProbeResult) :
    ∀ m : StatusMap, (∀ x ∈ rs, probeOutcome x = Outcome.down) →
      mapGet m url = "down" → runProbes m url rs = (m, 0) := by
  induction rs with
  | nil => intro m _ _; rfl
  | cons r rest ih =>
      intro m hall hm
      have hcw : checkWebsite m url r = (m, false) :=
        checkWebsite_down_already m url r (hall r (List.mem_cons_self r rest)) hm
      have hrest := ih m (fun x hx => hall x (List.mem_cons_of_mem r hx)) hm
      simp [runProbes, hcw, hrest]

/-- C2: a `checkWebsite` step notifies if and only if the probe outcome
is Down and the previously stored status is not `down`; after any Down
step the stored status is `down`; and a run of N consecutive Down
outcomes starting from a non-`down` stored status sends exactly one
notification, on the first Down, leaving the status `down`. -/
theorem checkWebsite_notification_iff :
    (∀ (m : StatusMap) (url : String) (r : ProbeResult),
        (checkWebsite m url r).2 = true ↔
          (probeOutcome r = Outcome.down ∧ mapGet m url ≠ "down"))
  ∧ (∀ (m : StatusMap) (url : String) (r : ProbeResult),
        probeOutcome r = Outcome.down →
          mapGet (checkWebsite m url r).1 url = "down")
  ∧ (∀ (m : StatusMap) (url : String) (r : ProbeResult) (rs : List ProbeResult),
        (∀ x ∈ r :: rs, probeOutcome x = Outcome.down) →
        mapGet m url ≠ "down" →
          (checkWebsite m url r).2 = true
        ∧ runProbes m url (r :: rs) = ((checkWebsite m url r).1, 1)
        ∧ mapGet (runProbes m url (r :: rs)).1 url = "down") := by
  refine ⟨fun m url r => ?_, fun m url r hr => ?_, fun m url r rs hall hm => ?_⟩
  · rcases hr : probeOutcome r with _ | _
    · rw [checkWebsite_up_eq m url r hr]
      simp
    · by_cases hm : mapGet m url = "down"
      · rw [checkWebsite_down_already m url r hr hm]
        simp [hm]
      · rw [checkWebsite_down_new m url r hr hm]
        simp [hm]
  · by_cases hm : mapGet m url = "down"
    · rw [checkWebsite_down_already m url r hr hm]
      exact hm
    · rw [checkWebsite_down_new m url r hr hm]
      exact mapGet_mapSet_self m url "down"
  · have hr := hall r (List.mem_cons_self r rs)
    have hcw : checkWebsite m url r = (mapSet m url "down", true) :=
      checkWebsite_down_new m url r hr hm
    have hafter : mapGet (mapSet m url "down") url = "down" :=
      mapGet_mapSet_self m url "down"
    have hrest : runProbes (mapSet m url "down") url rs = (mapSet m url "down", 0) :=
      runProbes_all_down_already url rs (mapSet m url "down")
        (fun x hx => hall x (List.mem_cons_of_mem r hx)) hafter
    refine ⟨by rw [hcw], ?_, ?_⟩
    · simp [runProbes, hcw, hrest]
    · simp [runProbes, hcw, hrest, hafter]

/-- Witness for C2: from the empty store, three consecutive Down
outcomes for one target notify exactly once, on the first, and leave the
stored status `down`. -/
theorem checkWebsite_notification_iff_witness :
    (checkWebsite initialStatusMap "a.com" ProbeResult.transportError).2 = true
  ∧ runProbes initialStatusMap "a.com"
      (ProbeResult.transportError ::
        [ProbeResult.response 500, ProbeResult.transportError])
      = ((checkWebsite initialStatusMap "a.com" ProbeResult.transportError).1, 1)
  ∧ mapGet (runProbes initialStatusMap "a.com"
      (ProbeResult.transportError ::
        [ProbeResult.response 500, ProbeResult.transportError])).1 "a.com"
      = "down" :=
  checkWebsite_notification_iff.2.2 initialStatusMap "a.com"
    ProbeResult.transportError [ProbeResult.response 500, ProbeResult.transportError]
    (by decide) (by decide)

/-- C5: `page` defaults to 1 when absent, non-numeric, or below 1;
`limit` defaults to 10 when absent, non-numeric, or below 1; any parsed
value at least 1 is accepted unchanged (no upper bound); and the
handler's response for `page=0`, `page=-5`, `page=x`, and an absent
`page` is identical to `page=1`, while `limit=0`, `limit=-1`, and an
absent `limit` behave identically to `limit=10`. -/
theorem statusHandler_defaulting :
    (∀ s : String, goAtoi s = none → effPage s = 1 ∧ effLimit s = 10)
  ∧ (∀ (s : String) (v : Int), goAtoi s = some v → v < 1 →
        effPage s = 1 ∧ effLimit s = 10)
  ∧ (∀ (s : String) (v : Int), goAtoi s = some v → 1 ≤ v →
        effPage s = v ∧ effLimit s = v)
  ∧ (goAtoi "" = none ∧ goAtoi "x" = none)
  ∧ (∀ (m : StatusMap) (l : String),
        statusHandler m "0" l = statusHandler m "1" l
      ∧ statusHandler m "-5" l = statusHandler m "1" l
      ∧ statusHandler m "x" l = statusHandler m "1" l
      ∧ statusHandler m "" l = statusHandler m "1" l)
  ∧ (∀ (m : StatusMap) (p : String),
        statusHandler m p "0" = statusHandler m p "10"
      ∧ statusHandler m p "-1" = statusHandler m p "10"
      ∧ statusHandler m p "" = statusHandler m p "10") := by
  refine ⟨fun s h => ?_, fun s v h hv => ?_, fun s v h hv => ?_,
    ⟨by decide, by decide⟩, fun m l => ⟨rfl, rfl, rfl, rfl⟩,
    fun m p => ⟨rfl, rfl, rfl⟩⟩
  · simp [effPage, effLimit, h]
  · simp [effPage, effLimit, h, hv]
  · have hvlt : ¬v < 1 := not_lt.mpr hv
    simp [effPage, effLimit, h, hvlt]

/-- Witness for C5: the parameter string `7` parses to 7 and is accepted
unchanged as both page and limit. -/
theorem statusHandler_defaulting_witness :
    effPage "7" = 7 ∧ effLimit "7" = 7 :=
  statusHandler_defaulting.2.2.1 "7" 7 (by decide) (by decide)

/-- C3 at a failing input: with `page=2305843009213693953` (which is
`2^61 + 1`, accepted by the defaulting since it parses and is at least
1) and `limit=4`, the computation `start = (page-1)*limit` wraps around
64-bit `int` to `-2^63`; the code clamps only the upper bound, so the
slice expression `statuses[start:end]` has a negative lower bound and
fails (runtime panic), modelled as `none`. -/
theorem statusHandlerWrap_overflow_failure :
    effPage "2305843009213693953" = 2305843009213693953
  ∧ effLimit "4" = 4
  ∧ statusHandlerWrap initialStatusMap "2305843009213693953" "4" = none := by
  exact ⟨by decide, by decide, by decide⟩

/-! ## Reachability invariant: stored values are only `up` or `down` -/

theorem mem_mapSet (m : StatusMap) (k v : String) (p : String × String)
    (h : p ∈ mapSet m k v) : p.2 = v ∨ p ∈ m := by
  unfold mapSet at h
  by_cases hs : (m.lookup k).isSome
  · rw [if_pos hs] at h
    obtain ⟨q, hq, hmap⟩ := List.mem_map.mp h
    by_cases hqk : q.1 = k
    · rw [if_pos hqk] at hmap
      left
      rw [← hmap]
    · rw [if_neg hqk] at hmap
      right
      rw [← hmap]
      exact hq
  · rw [if_neg hs] at h
    rcases List.mem_append.mp h with h1 | h2
    · right
      exact h1
    · left
      have hp : p = (k, v) := by simpa using h2
      rw [hp]

theorem checkWebsite_fst_cases (m : StatusMap) (url : String) (r : ProbeResult) :
    (checkWebsite m url r).1 = m
  ∨ (checkWebsite m url r).1 = mapSet m url "up"
  ∨ (checkWebsite m url r).1 = mapSet m url "down" := by
  rcases hr : probeOutcome r with _ | _
  · right
    left
    rw [checkWebsite_up_eq m url r hr]
  · by_cases hm : mapGet m url = "down"
    · left
      rw [checkWebsite_down_already m url r hr hm]
    · right
      right
      rw [checkWebsite_down_new m url r hr hm]

theorem reachable_values (m : StatusMap) (h : Reachable m) :
    ∀ p ∈ m, p.2 = "up" ∨ p.2 = "down" := by
  induction h with
  | init =>
      intro p hp
      simp [initialStatusMap] at hp
  | step url r hprev ih =>
      intro p hp
      rcases checkWebsite_fst_cases _ url r with hc | hc | hc <;> rw [hc] at hp
      · exact ih p hp
      · rcases mem_mapSet _ _ _ _ hp with h1 | h1
        · exact Or.inl h1
        · exact ih p h1
      · rcases mem_mapSet _ _ _ _ hp with h1 | h1
        · exact Or.inr h1
        · exact ih p h1

/-- C10: every entry the query handler returns has status exactly `up`
or `down`: a store entry exists only once some probe has written one of
those two values, so `unknown` is never produced — a never-probed target
is simply absent from the response. -/
theorem statusHandler_status_values (m : StatusMap) (h : Reachable m)
    (pageStr limitStr : String) (e : StatusEntry)
    (he : e ∈ (statusHandler m pageStr limitStr).data) :
    e.status = "up" ∨ e.status = "down" := by
  have hsub : ((statusHandler m pageStr limitStr).data).Sublist (snapshot m) := by
    simp only [statusHandler, paginateCore]
    exact (List.drop_sublist _ _).trans (List.take_sublist _ _)
  have hmem : e ∈ snapshot m := hsub.mem he
  have hmem2 : e ∈ entriesOf m :=
    (List.mergeSort_perm (entriesOf m) _).mem_iff.mp hmem
  obtain ⟨p, hp, hpe⟩ := List.mem_map.mp hmem2
  have hval := reachable_values m h p hp
  rw [← hpe]
  simpa using hval

/-- Witness for C10: after one failed probe from the empty store, the
handler's only entry has status `down` (in particular not `unknown`). -/
theorem statusHandler_status_values_witness :
    ({ url := "a.com", status := "down" } : StatusEntry).status = "up"
  ∨ ({ url := "a.com", status := "down" } : StatusEntry).status = "down" :=
  statusHandler_status_values
    (checkWebsite initialStatusMap "a.com" ProbeResult.transportError).1
    (Reachable.step "a.com" ProbeResult.transportError Reachable.init)
    "" "" { url := "a.com", status := "down" }
    (by
      have hsnap :
          snapshot (checkWebsite initialStatusMap "a.com" ProbeResult.transportError).1
          = [{ url := "a.com", status := "down" }] := by
        show snapshot [("a.com", "down")] = _
        simp [snapshot, entriesOf]
      have hdata :
          (statusHandler
            (checkWebsite initialStatusMap "a.com" ProbeResult.transportError).1
            "" "").data
          = [{ url := "a.com", status := "down" }] := by
        show (paginateCore
          (snapshot (checkWebsite initialStatusMap "a.com" ProbeResult.transportError).1)
          (effPage "") (effLimit "")).data = _
        rw [hsnap]
        rfl
      rw [hdata]
      exact List.mem_cons_self _ _)

/-! ## Pagination: total pages and page boundaries -/

/-- Under the exact-arithmetic idealization (the spec's intended
behavior, which the wrapping code fails at overflowing limits — see
`paginateWrap_totalPages_overflow`): `totalPages` is the ceiling of
`total_items / limit` — characterized by `total_items ≤ totalPages *
limit` and `(totalPages - 1) * limit < total_items`, equal to 0 for an
empty snapshot — and for a 3-entry snapshot and limit 2, page 1 returns
2 entries, page 2 returns 1, page 3 an empty data array with
`currentPage` 3 and `totalPages` 2. -/
theorem paginateCore_totalPages_ceil_ideal :
    (∀ (l : List StatusEntry) (page limit : Int), 1 ≤ limit →
        ((l.length : Int) ≤ (paginateCore l page limit).totalPages * limit
      ∧ ((paginateCore l page limit).totalPages - 1) * limit < (l.length : Int)
      ∧ (l.length = 0 → (paginateCore l page limit).totalPages = 0)))
  ∧ (∀ l : List StatusEntry, l.length = 3 →
        (paginateCore l 1 2).totalPages = 2
      ∧ (paginateCore l 1 2).data.length = 2
      ∧ (paginateCore l 2 2).data.length = 1
      ∧ (paginateCore l 3 2).data = []
      ∧ (paginateCore l 3 2).currentPage = 3
      ∧ (paginateCore l 3 2).totalPages = 2) := by
  refine ⟨fun l page limit hlim => ?_, fun l hl => ?_⟩
  · have hn0 : (0 : Int) ≤ (l.length : Int) := Int.ofNat_nonneg l.length
    have hTP : (paginateCore l page limit).totalPages
        = ((l.length : Int) + limit - 1) / limit := by
      show Int.tdiv ((l.length : Int) + limit - 1) limit = _
      exact Int.tdiv_eq_ediv (by omega) (by omega)
    rw [hTP]
    set q := ((l.length : Int) + limit - 1) / limit with hq
    have h1 : q * limit ≤ (l.length : Int) + limit - 1 :=
      Int.ediv_mul_le _ (by omega)
    have h2 : (l.length : Int) + limit - 1 < (q + 1) * limit :=
      Int.lt_ediv_add_one_mul_self _ (by omega)
    have hexp1 : (q + 1) * limit = q * limit + limit := by ring
    have hexp2 : (q - 1) * limit = q * limit - limit := by ring
    rw [hexp1] at h2
    refine ⟨?_, ?_, ?_⟩
    · have h3 : (l.length : Int) - 1 < q * limit := by linarith
      have h4 := Int.lt_iff_add_one_le.mp h3
      linarith
    · rw [hexp2]
      linarith
    · intro h0
      rw [hq, h0]
      simp only [Nat.cast_zero, zero_add]
      exact Int.ediv_eq_zero_of_lt (by omega) (by omega)
  · have h3 : (l.length : Int) = 3 := by rw [hl]; norm_num
    have htp : ∀ page : Int, (paginateCore l page 2).totalPages = 2 := by
      intro page
      show Int.tdiv ((l.length : Int) + 2 - 1) 2 = 2
      rw [h3]
      decide
    have hdata1 : (paginateCore l 1 2).data = l.take 2 := by
      simp only [paginateCore, h3]
      norm_num
      rfl
    have hdata2 : (paginateCore l 2 2).data = (l.take 3).drop 2 := by
      simp only [paginateCore, h3]
      norm_num
      rfl
    have hdata3 : (paginateCore l 3 2).data = [] := by
      simp only [paginateCore, h3]
      norm_num
    refine ⟨htp 1, ?_, ?_, hdata3, rfl, htp 3⟩
    · rw [hdata1, List.length_take, hl]
      norm_num
    · rw [hdata2, List.length_drop, List.length_take, hl]
      norm_num

/-- C7 at a failing input: with `limit=9223372036854775807` (2^63-1,
accepted by the defaulting, which enforces no upper bound on limit) and
a 2-entry snapshot, Go computes `totalPages = (totalItems + limit - 1)
/ limit` on 64-bit `int`: `totalItems + limit` wraps to `2 - 2^63`, the
subsequent `- 1` makes `-2^63`, and truncated division by `2^63 - 1`
yields `-1` — where the claimed ceiling, the value of the
exact-arithmetic idealization, is 1.  The response is otherwise served
normally (the slice bounds happen to stay legal on page 1). -/
theorem paginateWrap_totalPages_overflow :
    effLimit "9223372036854775807" = 9223372036854775807
  ∧ paginateWrap
      [{ url := "a.com", status := "up" }, { url := "b.com", status := "up" }]
      1 9223372036854775807
    = some { totalPages := -1, currentPage := 1,
             data := [{ url := "a.com", status := "up" },
                      { url := "b.com", status := "up" }] }
  ∧ (paginateCore
      [{ url := "a.com", status := "up" }, { url := "b.com", status := "up" }]
      1 9223372036854775807).totalPages = 1 := by
  exact ⟨by decide, by decide, by decide⟩

/-! ## Pagination: concatenating all pages reproduces the snapshot -/

theorem drop_take_flatten (L : Nat) (hL : 1 ≤ L) :
    ∀ (tp : Nat) (l : List StatusEntry), tp = (l.length + L - 1) / L →
      ((List.range tp).map (fun i => (l.drop (i * L)).take L)).flatten = l := by
  intro tp
  induction tp with
  | zero =>
      intro l h
      have h0 : l.length + L - 1 < L := (Nat.div_eq_zero_iff (by omega)).mp h.symm
      have hlen : l.length = 0 := by omega
      rw [List.length_eq_zero.mp hlen]
      simp
  | succ t ih =>
      intro l h
      have hlen : 1 ≤ l.length := by
        by_contra hc
        have h0 : l.length = 0 := by omega
        rw [h0] at h
        have e2 : (0 + L - 1) / L = 0 := Nat.div_eq_of_lt (by omega)
        rw [e2] at h
        omega
      have hrec : t = ((l.drop L).length + L - 1) / L := by
        rw [List.length_drop]
        by_cases hcase : L ≤ l.length
        · have e1 : l.length - L + L - 1 = l.length - 1 := by omega
          rw [e1]
          have e2 : l.length + L - 1 = l.length - 1 + L := by omega
          rw [e2, Nat.add_div_right _ (by omega)] at h
          exact Nat.add_right_cancel h
        · have e1 : l.length - L = 0 := by omega
          rw [e1]
          have e2 : (0 + L - 1) / L = 0 := Nat.div_eq_of_lt (by omega)
          rw [e2]
          have hub : (l.length + L - 1) / L < 2 := by
            apply Nat.div_lt_of_lt_mul
            omega
          rw [← h] at hub
          omega
      rw [List.range_succ_eq_map, List.map_cons, List.flatten_cons, List.map_map]
      have hhead : (l.drop (0 * L)).take L = l.take L := by
        simp
      have htail :
          List.map ((fun i => (l.drop (i * L)).take L) ∘ Nat.succ) (List.range t)
            = List.map (fun i => (((l.drop L).drop (i * L)).take L)) (List.range t) := by
        apply List.map_congr_left
        intro i _
        simp only [Function.comp_apply]
        rw [Nat.succ_mul, Nat.add_comm (i * L) L, ← List.drop_drop]
      rw [hhead, htail, ih (l.drop L) hrec, List.take_append_drop]

theorem paginateCore_data_drop_take (l : List StatusEntry) (L i : Nat)
    (hi : i * L < l.length) :
    (paginateCore l ((i : Int) + 1) ((L : Nat) : Int)).data
      = (l.drop (i * L)).take L := by
  have hstart : ((i : Int) + 1 - 1) * (L : Int) = ((i * L : Nat) : Int) := by
    push_cast
    ring
  have hs1 : ¬(((i * L : Nat) : Int) > ((l.length : Nat) : Int)) := by
    simp only [gt_iff_lt, Nat.cast_lt]
    omega
  have hend : ((i * L : Nat) : Int) + (L : Int) = ((i * L + L : Nat) : Int) := by
    push_cast
    ring
  simp only [paginateCore]
  rw [hstart, if_neg hs1, hend]
  by_cases hcase : i * L + L ≤ l.length
  · have hc2 : ¬(((i * L + L : Nat) : Int) > ((l.length : Nat) : Int)) := by
      simp only [gt_iff_lt, Nat.cast_lt]
      omega
    rw [if_neg hc2, Int.toNat_ofNat, Int.toNat_ofNat, List.drop_take,
      Nat.add_sub_cancel_left]
  · have hc2 : (((i * L + L : Nat) : Int) > ((l.length : Nat) : Int)) := by
      simp only [gt_iff_lt, Nat.cast_lt]
      omega
    have hlen2 : (l.drop (i * L)).length ≤ L := by
      rw [List.length_drop]
      omega
    rw [if_pos hc2, Int.toNat_ofNat, Int.toNat_ofNat, List.drop_take,
      List.take_of_length_le (List.length_drop _ _).le,
      List.take_of_length_le hlen2]

/-- Under the exact-arithmetic idealization (the spec's intended
behavior, which the wrapping code fails at overflowing limits — see
`allPagesDataWrap_overflow_omission`): concatenating the `data` arrays
of pages 1 through `totalPages` over a fixed snapshot, at any limit at
least 1, reproduces exactly the full snapshot; and the snapshot the
handler paginates is the store's entries sorted by URL (a permutation
of the entries, pairwise ordered lexicographically). -/
theorem paginateCore_pages_concat_ideal :
    (∀ (statuses : List StatusEntry) (limit : Int), 1 ≤ limit →
        allPagesData statuses limit = statuses)
  ∧ (∀ m : StatusMap,
        List.Pairwise (fun a b : StatusEntry => a.url ≤ b.url) (snapshot m)
      ∧ (snapshot m).Perm (entriesOf m)) := by
  constructor
  · intro statuses limit hlim
    obtain ⟨L, rfl⟩ : ∃ Lv : Nat, ((Lv : Nat) : Int) = limit :=
      ⟨limit.toNat, Int.toNat_of_nonneg (by omega)⟩
    have hL : 1 ≤ L := by exact_mod_cast hlim
    have hTPnat : (paginateCore statuses 1 (L : Int)).totalPages.toNat
        = (statuses.length + L - 1) / L := by
      have h1 : (paginateCore statuses 1 (L : Int)).totalPages
          = Int.tdiv ((statuses.length : Int) + (L : Int) - 1) (L : Int) := rfl
      have h2 : ((statuses.length : Int) + (L : Int) - 1)
          = ((statuses.length + L - 1 : Nat) : Int) := by omega
      rw [h1, h2, ← Int.ofNat_tdiv, Int.toNat_ofNat]
    have hcongr : ∀ i ∈ List.range ((statuses.length + L - 1) / L),
        (paginateCore statuses ((i : Int) + 1) (L : Int)).data
          = (statuses.drop (i * L)).take L := by
      intro i hi
      rw [List.mem_range] at hi
      apply paginateCore_data_drop_take
      have h1 : ((statuses.length + L - 1) / L) * L ≤ statuses.length + L - 1 :=
        Nat.div_mul_le_self _ _
      have h2 : i * L ≤ ((statuses.length + L - 1) / L - 1) * L :=
        Nat.mul_le_mul_right L (by omega)
      have h3 : ((statuses.length + L - 1) / L - 1) * L
          = ((statuses.length + L - 1) / L) * L - 1 * L := Nat.sub_mul _ 1 L
      have hn1 : 1 ≤ statuses.length := by
        by_contra hc
        have h0 : statuses.length = 0 := by omega
        rw [h0] at hi
        have e2 : (0 + L - 1) / L = 0 := Nat.div_eq_of_lt (by omega)
        rw [e2] at hi
        omega
      omega
    simp only [allPagesData]
    rw [hTPnat, List.map_congr_left hcongr]
    exact drop_take_flatten L hL _ statuses rfl
  · intro m
    constructor
    · have htrans : ∀ a b c : StatusEntry,
          decide (a.url ≤ b.url) = true → decide (b.url ≤ c.url) = true →
            decide (a.url ≤ c.url) = true := by
        intro a b c hab hbc
        rw [decide_eq_true_eq] at *
        exact le_trans hab hbc
      have htotal : ∀ a b : StatusEntry,
          (decide (a.url ≤ b.url) || decide (b.url ≤ a.url)) = true := by
        intro a b
        rcases le_total a.url b.url with h | h <;> simp [h]
      have hp := List.sorted_mergeSort htrans htotal (entriesOf m)
      simp only [snapshot]
      exact hp.imp (fun hab => of_decide_eq_true hab)
    · simp only [snapshot]
      exact List.mergeSort_perm _ _

/-- C6 at a failing input: with `limit=9223372036854775807` (2^63-1,
accepted by the defaulting) and a 2-entry snapshot, the wrapped
`totalPages` the program reports is `-1`, so pages 1 through
`totalPages` are no pages at all and their concatenation is empty,
omitting both entries — while under the exact arithmetic the spec
intends, the concatenation reproduces the snapshot exactly. -/
theorem allPagesDataWrap_overflow_omission :
    effLimit "9223372036854775807" = 9223372036854775807
  ∧ allPagesDataWrap
      [{ url := "a.com", status := "up" }, { url := "b.com", status := "up" }]
      9223372036854775807 = []
  ∧ allPagesData
      [{ url := "a.com", status := "up" }, { url := "b.com", status := "up" }]
      9223372036854775807
      = [{ url := "a.com", status := "up" }, { url := "b.com", status := "up" }] := by
  exact ⟨by decide, by decide, by decide⟩

end UptimeMonitor
